import Mathlib

/-!
# Verification of the userver distributed-lock coordinator core

This development embeds, in Lean 4, the parts of the `dist_lock` core of the
repository that its specification talks about:

* `MockDistLockStrategy` — a direct shallow embedding of the reference mock
  strategy from `core/src/dist_lock/dist_lock_test.cpp` (state: `locked_by`
  string, `allowed` flag, `attempts` counter; operations `Acquire`/`Release`).
* A model of the `Locker` state machine (`dist_lock::impl::Locker::Run` and
  `RunWatchdog`).  Only the class declaration of `Locker` is present in the
  sources, so the run loop is modelled from the specification, faithfully to
  its §4.2 state machine: an acquiring loop, a holding epoch with renewal
  ticks and a watchdog freshness check, release on every exit, and the
  mode-dependent restart decision.
* A small concurrent transition system of several lockers contending through
  one shared `MockDistLockStrategy`, for the mutual-exclusion property.
-/

namespace DistLock

/-- Outcome of one `Acquire` call, as distinguished by the Locker:
success, the distinct `LockIsAcquiredByAnotherHostException`, or any other
(hard) failure such as the mock's `std::runtime_error("not allowed")`. -/
inductive AcquireOutcome where
  | success
  | heldByAnother
  | otherFailure
  deriving DecidableEq, Repr

/-- State of `MockDistLockStrategy` from `dist_lock_test.cpp`:
`locked_by_var_` (empty string means unlocked), `allowed_`, `attempts_`. -/
structure MockDistLockStrategy where
  lockedBy : String
  allowed : Bool
  attempts : Nat
  deriving DecidableEq, Repr

namespace MockDistLockStrategy

/-- The fresh mock: `locked_by` empty, `allowed_{false}`, `attempts_{0}`. -/
def init : MockDistLockStrategy := ⟨"", false, 0⟩

/-- `MockDistLockStrategy::Acquire(ttl, locker_id)`.  The `ttl` argument is
ignored by the mock.  It increments `attempts_`, then throws
`LockIsAcquiredByAnotherHostException` when the holder is non-empty and
different from `locker_id`, then throws `std::runtime_error("not allowed")`
when `allowed_` is false, and otherwise records `locker_id` as the holder.
The returned pair is (outcome, post-state). -/
def Acquire (s : MockDistLockStrategy) (lockerId : String) :
    AcquireOutcome × MockDistLockStrategy :=
  if s.lockedBy ≠ "" ∧ s.lockedBy ≠ lockerId then
    (.heldByAnother, { s with attempts := s.attempts + 1 })
  else if s.allowed = false then
    (.otherFailure, { s with attempts := s.attempts + 1 })
  else
    (.success, { s with attempts := s.attempts + 1, lockedBy := lockerId })

/-- `MockDistLockStrategy::Release(locker_id)`: clears the holder only when
`locker_id` currently holds the lock; always returns normally. -/
def Release (s : MockDistLockStrategy) (lockerId : String) :
    MockDistLockStrategy :=
  if s.lockedBy = lockerId then { s with lockedBy := "" } else s

/-- `MockDistLockStrategy::IsLocked()`: the holder string is non-empty. -/
def IsLocked (s : MockDistLockStrategy) : Bool := s.lockedBy ≠ ""

/-- `MockDistLockStrategy::Allow(allowed)`. -/
def Allow (s : MockDistLockStrategy) (a : Bool) : MockDistLockStrategy :=
  { s with allowed := a }

/-- `MockDistLockStrategy::SetLockedBy(whom)`. -/
def SetLockedBy (s : MockDistLockStrategy) (whom : String) :
    MockDistLockStrategy :=
  { s with lockedBy := whom }

end MockDistLockStrategy

end DistLock

namespace DistLock

/-- C8: case analysis of `Acquire`: held-by-another iff the holder is
non-empty and differs from the caller; otherwise hard failure iff not
allowed; otherwise success recording the caller as holder; renewal by the
current holder succeeds. -/
theorem acquire_case_analysis (s : MockDistLockStrategy) (id : String)
    (hid : id ≠ "") :
    ((s.Acquire id).1 = .heldByAnother ↔ (s.lockedBy ≠ "" ∧ s.lockedBy ≠ id))
    ∧ ((s.Acquire id).1 = .otherFailure ↔
        (¬ (s.lockedBy ≠ "" ∧ s.lockedBy ≠ id) ∧ s.allowed = false))
    ∧ ((s.Acquire id).1 = .success ↔
        (¬ (s.lockedBy ≠ "" ∧ s.lockedBy ≠ id) ∧ s.allowed = true))
    ∧ ((s.Acquire id).1 = .success → (s.Acquire id).2.lockedBy = id)
    ∧ (s.lockedBy = id → s.allowed = true → (s.Acquire id).1 = .success) := by
  unfold MockDistLockStrategy.Acquire
  split_ifs with hA hB
  · simp [hA.1, hA.2]
  · simp [hA, hB]
  · simp [hA, hB]

/-- Witness for `acquire_case_analysis` at a concrete state and id. -/
theorem acquire_case_analysis_witness :
    let s : MockDistLockStrategy := ⟨"other", true, 5⟩
    ((s.Acquire "me").1 = .heldByAnother ↔ (s.lockedBy ≠ "" ∧ s.lockedBy ≠ "me"))
    ∧ ((s.Acquire "me").1 = .otherFailure ↔
        (¬ (s.lockedBy ≠ "" ∧ s.lockedBy ≠ "me") ∧ s.allowed = false))
    ∧ ((s.Acquire "me").1 = .success ↔
        (¬ (s.lockedBy ≠ "" ∧ s.lockedBy ≠ "me") ∧ s.allowed = true))
    ∧ ((s.Acquire "me").1 = .success → (s.Acquire "me").2.lockedBy = "me")
    ∧ (s.lockedBy = "me" → s.allowed = true → (s.Acquire "me").1 = .success) :=
  acquire_case_analysis ⟨"other", true, 5⟩ "me" (by decide)

/-- C9: `Release` clears the holder iff the caller holds the lock, leaves
the state unchanged otherwise, and always returns normally (it is a total
function). -/
theorem release_conditional (s : MockDistLockStrategy) (id : String) :
    (s.lockedBy = id → (s.Release id).lockedBy = "")
    ∧ (s.lockedBy ≠ id → s.Release id = s)
    ∧ (s.Release id).allowed = s.allowed
    ∧ (s.Release id).attempts = s.attempts := by
  unfold MockDistLockStrategy.Release
  by_cases h : s.lockedBy = id <;> simp [h]

/-- Witness for `release_conditional`: the holder releases, a non-holder
call leaves the state unchanged. -/
theorem release_conditional_witness :
    ((⟨"me", true, 4⟩ : MockDistLockStrategy).Release "me").lockedBy = ""
    ∧ (⟨"me", true, 4⟩ : MockDistLockStrategy).Release "you"
        = (⟨"me", true, 4⟩ : MockDistLockStrategy) :=
  ⟨(release_conditional ⟨"me", true, 4⟩ "me").1 rfl,
   (release_conditional ⟨"me", true, 4⟩ "you").2.1 (by decide)⟩

/-- C10: a failing `Acquire` (contention or hard failure) leaves `locked_by`
unchanged, and every `Acquire` call increments `attempts_` by exactly one. -/
theorem acquire_fail_frame (s : MockDistLockStrategy) (id : String) :
    ((s.Acquire id).1 ≠ .success → (s.Acquire id).2.lockedBy = s.lockedBy)
    ∧ (s.Acquire id).2.attempts = s.attempts + 1 := by
  unfold MockDistLockStrategy.Acquire
  split_ifs with hA hB <;> simp

/-- Witness for `acquire_fail_frame`: a contended call by "me" against a
state held by "other" leaves the holder unchanged and bumps attempts. -/
theorem acquire_fail_frame_witness :
    ((⟨"other", true, 7⟩ : MockDistLockStrategy).Acquire "me").2.lockedBy
      = "other"
    ∧ ((⟨"other", true, 7⟩ : MockDistLockStrategy).Acquire "me").2.attempts
      = 8 :=
  ⟨(acquire_fail_frame ⟨"other", true, 7⟩ "me").1 (by decide),
   (acquire_fail_frame ⟨"other", true, 7⟩ "me").2⟩

end DistLock

namespace DistLock

/-! ## Helper lemmas about the mock strategy, shared by later sections. -/

theorem Acquire_success_lockedBy (s : MockDistLockStrategy) (id : String)
    (h : (s.Acquire id).1 = .success) : (s.Acquire id).2.lockedBy = id := by
  unfold MockDistLockStrategy.Acquire at *
  split_ifs at h ⊢ <;> simp_all

theorem Acquire_fail_lockedBy (s : MockDistLockStrategy) (id : String)
    (h : (s.Acquire id).1 ≠ .success) : (s.Acquire id).2.lockedBy = s.lockedBy := by
  unfold MockDistLockStrategy.Acquire at *
  split_ifs at h ⊢ <;> simp_all

theorem Acquire_heldByAnother_of (s : MockDistLockStrategy) (id : String)
    (h1 : s.lockedBy ≠ "") (h2 : s.lockedBy ≠ id) :
    (s.Acquire id).1 = .heldByAnother := by
  unfold MockDistLockStrategy.Acquire
  simp [h1, h2]

theorem Acquire_success_pre (s : MockDistLockStrategy) (id : String)
    (h : (s.Acquire id).1 = .success) : s.lockedBy = "" ∨ s.lockedBy = id := by
  unfold MockDistLockStrategy.Acquire at h
  split_ifs at h with hA hB
  rcases not_and_or.1 hA with h1 | h2
  · exact .inl (not_not.1 h1)
  · exact .inr (not_not.1 h2)

theorem Release_lockedBy (s : MockDistLockStrategy) (id : String) :
    (s.Release id).lockedBy = if s.lockedBy = id then "" else s.lockedBy := by
  unfold MockDistLockStrategy.Release
  split_ifs <;> simp

end DistLock

namespace DistLock.Locker

/-!
## The Locker state machine, modelled from the spec

`dist_lock::impl::Locker` is declared in the header (part of the sources)
but the bodies of `Locker::Run` and `Locker::RunWatchdog` are not under the
sources.  The definitions below are therefore modelled from the
specification §4.2 (acquirer loop, renewal loop, watchdog, release and
restart, cancellation) and settle the claims against that model.

A run is driven by an environment: outcomes of acquire attempts, renewal
ticks carrying the monotonic time of the watchdog check, and the payload's
behaviour (how many renewal ticks it outlives, and whether it returns
normally or throws).  External cancellation of the run is represented by
the environment's streams running out.  The interpreter produces the list
of observable events of the run, plus the outcome the task facade's `Get`
reports (`some e` = it rethrows the payload exception `e`).
-/

/-- `LockerMode` from the `Locker` header: `kOneshot` / `kWorker`. -/
inductive LockerMode where
  | oneshot
  | worker
  deriving DecidableEq, Repr

/-- `dist_lock::DistLockWaitingMode`: `kWait` / `kNoWait`. -/
inductive WaitingMode where
  | wait
  | noWait
  deriving DecidableEq, BEq, Repr

/-- `dist_lock::DistLockRetryMode`: `kRetry` / `kSingleAttempt`. -/
inductive RetryMode where
  | retry
  | singleAttempt
  deriving DecidableEq, Repr

/-- The five durations of `DistLockSettings` (spec §3), as abstract Nat
time units. -/
structure DistLockSettings where
  acquireInterval : Nat
  acquireIntervalCritical : Nat
  lockTtl : Nat
  forcedStopMargin : Nat
  prolongInterval : Nat
  deriving DecidableEq, Repr

/-- How a payload epoch ended: the payload returned normally, threw `e`,
or was cancelled (by the watchdog or by run cancellation) before it could
finish. -/
inductive PayloadExit where
  | finished
  | threw (e : String)
  | cancelled
  deriving DecidableEq, Repr

/-- Observable events of one `Locker::Run`. -/
inductive Event where
  | acqSuccess
  | acqContention
  | acqFailure
  | publishLocked (b : Bool)
  | payloadStart
  | renewOk (now : Nat)
  | renewContention
  | renewFailure
  | watchdogCancel (now refresh : Nat)
  | runCancelled
  | payloadEnd (x : PayloadExit)
  | release
  | terminated
  deriving DecidableEq, Repr

/-- A failed acquire attempt, as the acquirer loop distinguishes them. -/
inductive AcqFail where
  | heldByOther
  | otherFailure
  deriving DecidableEq, BEq, Repr

/-- One renewal-loop tick: the monotonic time at which the watchdog checks
freshness, and the outcome of the renewal `acquire` at that tick. -/
structure RenewTick where
  now : Nat
  outcome : AcquireOutcome
  deriving DecidableEq, Repr

/-- Environment of one holding epoch: the time of the successful acquire
that opened it, the renewal ticks (running out = run cancellation), the
number of ticks the payload outlives, and `none` (returns) / `some e`
(throws `e`) as its own outcome. -/
structure EpochEnv where
  acquireTime : Nat
  ticks : List RenewTick
  payloadLife : Nat
  payloadResult : Option String
  deriving DecidableEq, Repr

/-- One round of the run: failed acquire attempts, then a successful
acquire opening a holding epoch. -/
structure Round where
  preFailures : List AcqFail
  epoch : EpochEnv
  deriving DecidableEq, Repr

/-- Environment of a whole run: the rounds that reach a holding epoch,
then acquire attempts that keep failing until the run is cancelled. -/
structure RunEnv where
  rounds : List Round
  tailFailures : List AcqFail
  deriving DecidableEq, Repr

/-- Modelled from the spec: the freshness test of
`dist_lock::impl::Locker::RunWatchdog`, whose body is not in the sources.
Spec §4.2.4: the watchdog declares the lock lost exactly when
`now - lock_refresh_time > lock_ttl + forced_stop_margin`. -/
def watchdogFires (st : DistLockSettings) (now refresh : Nat) : Bool :=
  decide (refresh + st.lockTtl + st.forcedStopMargin < now)

/-- The event the acquirer loop records for a failed attempt. -/
def acqFailEvent : AcqFail → Event
  | .heldByOther => .acqContention
  | .otherFailure => .acqFailure

/-- Modelled from the spec: the failing part of the acquirer loop of
`Locker::Run` (spec §4.2.2).  `first` says whether the next attempt is the
first attempt of the run; per §4.2.2.3 a "held by other" outcome on the
first attempt under `NoWait` breaks the loop with `Terminated`.  Returns
the recorded events and whether the loop broke. -/
def acquireSeq (waiting : WaitingMode) : Bool → List AcqFail → List Event × Bool
  | _, [] => ([], false)
  | first, f :: rest =>
    if waiting == .noWait && first && f == .heldByOther then
      ([.acqContention], true)
    else
      let t := acquireSeq waiting false rest
      (acqFailEvent f :: t.1, t.2)

/-- Modelled from the spec: the renewal loop plus watchdog of a holding
epoch (spec §4.2.3–§4.2.4).  At each tick the watchdog checks freshness
first and cancels the payload when the check fails; otherwise the renewal
outcome is recorded (success updates `lock_refresh_time`, failures are
recorded but never cancel the payload).  When the payload outlives no more
ticks it exits by itself; running out of ticks is external cancellation of
the run.  Returns (events, payload exit, run-was-cancelled). -/
def epochLoop (st : DistLockSettings) (refresh : Nat) (ticks : List RenewTick)
    (life : Nat) (res : Option String) : List Event × PayloadExit × Bool :=
  match life with
  | 0 =>
    ([], (match res with | none => .finished | some e => .threw e), false)
  | life' + 1 =>
    match ticks with
    | [] => ([.runCancelled], .cancelled, true)
    | t :: rest =>
      if watchdogFires st t.now refresh then
        ([.watchdogCancel t.now refresh], .cancelled, false)
      else
        match t.outcome with
        | .success =>
          let r := epochLoop st t.now rest life' res
          (.renewOk t.now :: r.1, r.2)
        | .heldByAnother =>
          let r := epochLoop st refresh rest life' res
          (.renewContention :: r.1, r.2)
        | .otherFailure =>
          let r := epochLoop st refresh rest life' res
          (.renewFailure :: r.1, r.2)

/-- Modelled from the spec: the restart decision on leaving Holding
(spec §4.2.5.4): Worker restarts (unless the run is cancelled, handled at
the call site); Oneshot+SingleAttempt terminates regardless; Oneshot+Retry
restarts only when the payload did not finish normally and the waiting
mode is Wait. -/
def modeRestarts (mode : LockerMode) (retry : RetryMode) (waiting : WaitingMode)
    (ex : PayloadExit) : Bool :=
  match mode, retry with
  | .worker, _ => true
  | .oneshot, .singleAttempt => false
  | .oneshot, .retry => (decide (ex ≠ .finished)) && (waiting == .wait)

/-- What the facade reports: payload exceptions propagate only in Oneshot
mode (spec §7); Worker mode logs and restarts. -/
def facadeResult (mode : LockerMode) (ex : PayloadExit) : Option String :=
  match mode, ex with
  | .oneshot, .threw e => some e
  | _, _ => none

/-- Modelled from the spec: the main loop of `Locker::Run` over the rounds
of the environment (spec §4.2.2 and §4.2.5).  Each round runs the failing
acquire attempts, then — unless `NoWait` broke the loop — the successful
acquire publishes `is_locked = true`, spawns the payload, runs the holding
epoch, joins the payload, releases, publishes `is_locked = false`, and the
mode decides between restarting and terminating. -/
def runRounds (st : DistLockSettings) (mode : LockerMode) (waiting : WaitingMode)
    (retry : RetryMode) : Bool → List Round → List AcqFail → List Event × Option String
  | first, [], tail =>
    let a := acquireSeq waiting first tail
    if a.2 then (a.1 ++ [.terminated], none)
    else (a.1 ++ [.runCancelled, .terminated], none)
  | first, r :: rest, tail =>
    let a := acquireSeq waiting first r.preFailures
    if a.2 then (a.1 ++ [.terminated], none)
    else
      let ep := epochLoop st r.epoch.acquireTime r.epoch.ticks
        r.epoch.payloadLife r.epoch.payloadResult
      let seg := a.1 ++ [.acqSuccess, .publishLocked true, .payloadStart]
        ++ ep.1 ++ [.payloadEnd ep.2.1, .release, .publishLocked false]
      if !ep.2.2 && modeRestarts mode retry waiting ep.2.1 then
        let nxt := runRounds st mode waiting retry false rest tail
        (seg ++ nxt.1, nxt.2)
      else
        (seg ++ [.terminated], facadeResult mode ep.2.1)

/-- Modelled from the spec: `dist_lock::impl::Locker::Run(mode, waiting)`,
whose body is not in the sources, as the interpreter of a run environment.
Returns the event trace of the run and the outcome that the task facade's
`Get` reports. -/
def Run (st : DistLockSettings) (mode : LockerMode) (waiting : WaitingMode)
    (retry : RetryMode) (env : RunEnv) : List Event × Option String :=
  runRounds st mode waiting retry true env.rounds env.tailFailures

/-! ### Observations over a trace -/

/-- The event is the successful acquire opening a holding epoch. -/
def isAcqSuccess : Event → Bool
  | .acqSuccess => true
  | _ => false

/-- The event is a `release(id)` call. -/
def isRelease : Event → Bool
  | .release => true
  | _ => false

/-- The event is the spawning of the payload task. -/
def isPayloadStart : Event → Bool
  | .payloadStart => true
  | _ => false

/-- The event is the join of the payload task. -/
def isPayloadEnd : Event → Bool
  | .payloadEnd _ => true
  | _ => false

/-- The event is a call into `strategy.Acquire` (initial attempt or
renewal), successful or not. -/
def isAcquireCall : Event → Bool
  | .acqSuccess => true
  | .acqContention => true
  | .acqFailure => true
  | .renewOk _ => true
  | .renewContention => true
  | .renewFailure => true
  | _ => false

/-- Whether the backend believes the locker holds the lock, folded over
the trace: a successful acquire (initial or renewal) records ownership,
`release` clears it; mirrors `MockDistLockStrategy` with no outside
interference. -/
def heldStep (b : Bool) : Event → Bool
  | .acqSuccess => true
  | .renewOk _ => true
  | .release => false
  | _ => b

/-- The published `is_locked_` flag, folded over the trace. -/
def lockedStep (b : Bool) : Event → Bool
  | .publishLocked v => v
  | _ => b

/-- Whether a payload task exists (spawned, not yet joined), folded over
the trace. -/
def runningStep (b : Bool) : Event → Bool
  | .payloadStart => true
  | .payloadEnd _ => false
  | _ => b

/-- Starting from flags `l` (`is_locked_`) and `r` (payload running),
checks that after every event of the list a running payload implies
`is_locked_ = true`. -/
def safeFrom (l r : Bool) : List Event → Bool
  | [] => true
  | e :: tl =>
    (!(runningStep r e) || lockedStep l e)
      && safeFrom (lockedStep l e) (runningStep r e) tl

end DistLock.Locker

namespace DistLock.Locker

/-! ### Structural lemmas about the run interpreter -/

theorem acqFailEvent_cases (f : AcqFail) :
    acqFailEvent f = .acqContention ∨ acqFailEvent f = .acqFailure := by
  cases f <;> simp [acqFailEvent]

theorem acquireSeq_mem (w : WaitingMode) :
    ∀ (fails : List AcqFail) (first : Bool) (e : Event),
      e ∈ (acquireSeq w first fails).1 →
      e = .acqContention ∨ e = .acqFailure := by
  intro fails
  induction fails with
  | nil => intro first e he; simp [acquireSeq] at he
  | cons f rest ih =>
    intro first e he
    unfold acquireSeq at he
    rcases hc : (w == WaitingMode.noWait && first && f == AcqFail.heldByOther)
    · rw [hc] at he
      simp at he
      rcases he with he | he
      · rcases acqFailEvent_cases f with h | h
        · exact .inl (he ▸ h ▸ rfl)
        · exact .inr (he ▸ h ▸ rfl)
      · exact ih false e he
    · rw [hc] at he
      simp at he
      exact .inl he

theorem acquireSeq_wait_no_break :
    ∀ (fails : List AcqFail) (first : Bool),
      (acquireSeq .wait first fails).2 = false := by
  intro fails
  induction fails with
  | nil => intro first; simp [acquireSeq]
  | cons f rest ih =>
    intro first
    unfold acquireSeq
    have hb : (WaitingMode.wait == WaitingMode.noWait) = false := by decide
    simp [hb, ih false]

theorem epochLoop_mem (st : DistLockSettings) :
    ∀ (life : Nat) (refresh : Nat) (ticks : List RenewTick) (res : Option String)
      (e : Event), e ∈ (epochLoop st refresh ticks life res).1 →
      (∃ n, e = .renewOk n) ∨ e = .renewContention ∨ e = .renewFailure
        ∨ (∃ n m, e = .watchdogCancel n m) ∨ e = .runCancelled := by
  intro life
  induction life with
  | zero => intro refresh ticks res e he; simp [epochLoop] at he
  | succ life ih =>
    intro refresh ticks res e he
    rcases ticks with _ | ⟨⟨tn, oc⟩, rest⟩
    · simp [epochLoop] at he
      exact .inr (.inr (.inr (.inr he)))
    · by_cases hw : watchdogFires st tn refresh
      · simp [epochLoop, hw] at he
        exact .inr (.inr (.inr (.inl ⟨tn, refresh, he⟩)))
      · cases oc with
        | success =>
          simp [epochLoop, hw] at he
          rcases he with he | he
          · exact .inl ⟨tn, he⟩
          · exact ih tn rest res e he
        | heldByAnother =>
          simp [epochLoop, hw] at he
          rcases he with he | he
          · exact .inr (.inl he)
          · exact ih refresh rest res e he
        | otherFailure =>
          simp [epochLoop, hw] at he
          rcases he with he | he
          · exact .inr (.inr (.inl he))
          · exact ih refresh rest res e he

theorem epochLoop_watchdog_cond (st : DistLockSettings) :
    ∀ (life : Nat) (refresh : Nat) (ticks : List RenewTick) (res : Option String)
      (now rfr : Nat),
      Event.watchdogCancel now rfr ∈ (epochLoop st refresh ticks life res).1 →
      rfr + st.lockTtl + st.forcedStopMargin < now := by
  intro life
  induction life with
  | zero => intro refresh ticks res now rfr he; simp [epochLoop] at he
  | succ life ih =>
    intro refresh ticks res now rfr he
    rcases ticks with _ | ⟨⟨tn, oc⟩, rest⟩
    · simp [epochLoop] at he
    · by_cases hw : watchdogFires st tn refresh
      · simp [epochLoop, hw] at he
        obtain ⟨h1, h2⟩ := he
        subst h1; subst h2
        simpa [watchdogFires] using hw
      · cases oc with
        | success =>
          simp [epochLoop, hw] at he
          exact ih tn rest res now rfr he
        | heldByAnother =>
          simp [epochLoop, hw] at he
          exact ih refresh rest res now rfr he
        | otherFailure =>
          simp [epochLoop, hw] at he
          exact ih refresh rest res now rfr he

theorem epochLoop_cancelled (st : DistLockSettings) :
    ∀ (life : Nat) (refresh : Nat) (ticks : List RenewTick) (res : Option String),
      (epochLoop st refresh ticks life res).2.1 = .cancelled →
      (∃ now rfr,
          Event.watchdogCancel now rfr ∈ (epochLoop st refresh ticks life res).1)
        ∨ Event.runCancelled ∈ (epochLoop st refresh ticks life res).1 := by
  intro life
  induction life with
  | zero =>
    intro refresh ticks res hc
    rcases res with _ | e <;> simp [epochLoop] at hc
  | succ life ih =>
    intro refresh ticks res hc
    rcases ticks with _ | ⟨⟨tn, oc⟩, rest⟩
    · simp [epochLoop]
    · by_cases hw : watchdogFires st tn refresh
      · simp [epochLoop, hw]
      · cases oc with
        | success =>
          simp [epochLoop, hw] at hc ⊢
          rcases ih tn rest res hc with ⟨now, rfr, hm⟩ | hm
          · exact .inl ⟨now, rfr, hm⟩
          · exact .inr hm
        | heldByAnother =>
          simp [epochLoop, hw] at hc ⊢
          rcases ih refresh rest res hc with ⟨now, rfr, hm⟩ | hm
          · exact .inl ⟨now, rfr, hm⟩
          · exact .inr hm
        | otherFailure =>
          simp [epochLoop, hw] at hc ⊢
          rcases ih refresh rest res hc with ⟨now, rfr, hm⟩ | hm
          · exact .inl ⟨now, rfr, hm⟩
          · exact .inr hm

/-! ### Shape of the run trace -/

theorem runRounds_nil (st : DistLockSettings) (mode : LockerMode)
    (w : WaitingMode) (rt : RetryMode) (first : Bool) (tail : List AcqFail) :
    runRounds st mode w rt first [] tail
      = if (acquireSeq w first tail).2
        then ((acquireSeq w first tail).1 ++ [.terminated], none)
        else ((acquireSeq w first tail).1 ++ [.runCancelled, .terminated], none) :=
  rfl

theorem runRounds_cons (st : DistLockSettings) (mode : LockerMode)
    (w : WaitingMode) (rt : RetryMode) (first : Bool) (r : Round)
    (rest : List Round) (tail : List AcqFail) :
    runRounds st mode w rt first (r :: rest) tail
      = if (acquireSeq w first r.preFailures).2 then
          ((acquireSeq w first r.preFailures).1 ++ [.terminated], none)
        else if !(epochLoop st r.epoch.acquireTime r.epoch.ticks
              r.epoch.payloadLife r.epoch.payloadResult).2.2
            && modeRestarts mode rt w
              (epochLoop st r.epoch.acquireTime r.epoch.ticks
                r.epoch.payloadLife r.epoch.payloadResult).2.1 then
          ((acquireSeq w first r.preFailures).1
            ++ [.acqSuccess, .publishLocked true, .payloadStart]
            ++ (epochLoop st r.epoch.acquireTime r.epoch.ticks
                r.epoch.payloadLife r.epoch.payloadResult).1
            ++ [.payloadEnd (epochLoop st r.epoch.acquireTime r.epoch.ticks
                  r.epoch.payloadLife r.epoch.payloadResult).2.1,
                .release, .publishLocked false]
            ++ (runRounds st mode w rt false rest tail).1,
           (runRounds st mode w rt false rest tail).2)
        else
          ((acquireSeq w first r.preFailures).1
            ++ [.acqSuccess, .publishLocked true, .payloadStart]
            ++ (epochLoop st r.epoch.acquireTime r.epoch.ticks
                r.epoch.payloadLife r.epoch.payloadResult).1
            ++ [.payloadEnd (epochLoop st r.epoch.acquireTime r.epoch.ticks
                  r.epoch.payloadLife r.epoch.payloadResult).2.1,
                .release, .publishLocked false]
            ++ [.terminated],
           facadeResult mode (epochLoop st r.epoch.acquireTime r.epoch.ticks
             r.epoch.payloadLife r.epoch.payloadResult).2.1) :=
  rfl

/-! ### Counting events in the trace -/

theorem acquireSeq_countP_zero (w : WaitingMode) (first : Bool)
    (fails : List AcqFail) (p : Event → Bool)
    (hc : p .acqContention = false) (hf : p .acqFailure = false) :
    (acquireSeq w first fails).1.countP p = 0 := by
  rw [List.countP_eq_zero]
  intro e he
  rcases acquireSeq_mem w fails first e he with h | h <;> simp [h, hc, hf]

theorem epochLoop_countP_zero (st : DistLockSettings) (life refresh : Nat)
    (ticks : List RenewTick) (res : Option String) (p : Event → Bool)
    (h1 : ∀ n, p (.renewOk n) = false) (h2 : p .renewContention = false)
    (h3 : p .renewFailure = false)
    (h4 : ∀ n m, p (.watchdogCancel n m) = false)
    (h5 : p .runCancelled = false) :
    (epochLoop st refresh ticks life res).1.countP p = 0 := by
  rw [List.countP_eq_zero]
  intro e he
  rcases epochLoop_mem st life refresh ticks res e he with
    ⟨n, h⟩ | h | h | ⟨n, m, h⟩ | h <;> simp [h, h1, h2, h3, h4, h5]

theorem runRounds_counts (st : DistLockSettings) (mode : LockerMode)
    (w : WaitingMode) (rt : RetryMode) :
    ∀ (rounds : List Round) (first : Bool) (tail : List AcqFail),
      ((runRounds st mode w rt first rounds tail).1.countP isRelease
        = (runRounds st mode w rt first rounds tail).1.countP isAcqSuccess)
      ∧ ((runRounds st mode w rt first rounds tail).1.countP isPayloadEnd
        = (runRounds st mode w rt first rounds tail).1.countP isPayloadStart) := by
  intro rounds
  induction rounds with
  | nil =>
    intro first tail
    rw [runRounds_nil]
    by_cases hb : (acquireSeq w first tail).2 = true <;>
      simp [hb, List.countP_append, List.countP_cons,
        acquireSeq_countP_zero w first tail isRelease rfl rfl,
        acquireSeq_countP_zero w first tail isAcqSuccess rfl rfl,
        acquireSeq_countP_zero w first tail isPayloadEnd rfl rfl,
        acquireSeq_countP_zero w first tail isPayloadStart rfl rfl,
        isRelease, isAcqSuccess, isPayloadEnd, isPayloadStart]
  | cons r rest ih =>
    intro first tail
    rw [runRounds_cons]
    by_cases hb : (acquireSeq w first r.preFailures).2 = true
    · simp [hb, List.countP_append, List.countP_cons,
        acquireSeq_countP_zero w first r.preFailures isRelease rfl rfl,
        acquireSeq_countP_zero w first r.preFailures isAcqSuccess rfl rfl,
        acquireSeq_countP_zero w first r.preFailures isPayloadEnd rfl rfl,
        acquireSeq_countP_zero w first r.preFailures isPayloadStart rfl rfl,
        isRelease, isAcqSuccess, isPayloadEnd, isPayloadStart]
    · have hza := fun p hc hf =>
        acquireSeq_countP_zero w first r.preFailures p hc hf
      have hze := fun p h1 h2 h3 h4 h5 =>
        epochLoop_countP_zero st r.epoch.payloadLife r.epoch.acquireTime
          r.epoch.ticks r.epoch.payloadResult p h1 h2 h3 h4 h5
      obtain ⟨ih1, ih2⟩ := ih false tail
      by_cases hc :
          (!(epochLoop st r.epoch.acquireTime r.epoch.ticks
              r.epoch.payloadLife r.epoch.payloadResult).2.2
            && modeRestarts mode rt w
              (epochLoop st r.epoch.acquireTime r.epoch.ticks
                r.epoch.payloadLife r.epoch.payloadResult).2.1) = true <;>
        simp [hb, hc, List.countP_append, List.countP_cons,
          hza isRelease rfl rfl, hza isAcqSuccess rfl rfl,
          hza isPayloadEnd rfl rfl, hza isPayloadStart rfl rfl,
          hze isRelease (fun _ => rfl) rfl rfl (fun _ _ => rfl) rfl,
          hze isAcqSuccess (fun _ => rfl) rfl rfl (fun _ _ => rfl) rfl,
          hze isPayloadEnd (fun _ => rfl) rfl rfl (fun _ _ => rfl) rfl,
          hze isPayloadStart (fun _ => rfl) rfl rfl (fun _ _ => rfl) rfl,
          isRelease, isAcqSuccess, isPayloadEnd, isPayloadStart,
          ih1, ih2]

theorem foldl_heldStep_neutral (evs : List Event)
    (h : ∀ e ∈ evs, ∀ b, heldStep b e = b) :
    ∀ b, evs.foldl heldStep b = b := by
  induction evs with
  | nil => intro b; rfl
  | cons e tl ih =>
    intro b
    have he := h e (by simp)
    rw [List.foldl_cons, he b]
    exact ih (fun x hx => h x (by simp [hx])) b

theorem acquireSeq_heldStep_neutral (w : WaitingMode) (first : Bool)
    (fails : List AcqFail) :
    ∀ b, (acquireSeq w first fails).1.foldl heldStep b = b := by
  apply foldl_heldStep_neutral
  intro e he b
  rcases acquireSeq_mem w fails first e he with h | h <;> simp [h, heldStep]

theorem runRounds_held (st : DistLockSettings) (mode : LockerMode)
    (w : WaitingMode) (rt : RetryMode) :
    ∀ (rounds : List Round) (first : Bool) (tail : List AcqFail),
      (runRounds st mode w rt first rounds tail).1.foldl heldStep false = false := by
  intro rounds
  induction rounds with
  | nil =>
    intro first tail
    rw [runRounds_nil]
    by_cases hb : (acquireSeq w first tail).2 = true <;>
      simp [hb, List.foldl_append, acquireSeq_heldStep_neutral, heldStep]
  | cons r rest ih =>
    intro first tail
    rw [runRounds_cons]
    by_cases hb : (acquireSeq w first r.preFailures).2 = true
    · simp [hb, List.foldl_append, acquireSeq_heldStep_neutral, heldStep]
    · by_cases hc :
          (!(epochLoop st r.epoch.acquireTime r.epoch.ticks
              r.epoch.payloadLife r.epoch.payloadResult).2.2
            && modeRestarts mode rt w
              (epochLoop st r.epoch.acquireTime r.epoch.ticks
                r.epoch.payloadLife r.epoch.payloadResult).2.1) = true <;>
        simp [hb, hc, List.foldl_append, acquireSeq_heldStep_neutral,
          heldStep, ih false tail]

end DistLock.Locker

namespace DistLock.Locker

/-- C2: matched acquire/release pairs.  For every run of `Locker::Run` —
any mode, waiting mode, retry mode and environment (including payload
failure and external cancellation) — the trace contains exactly one
`release` per successful epoch-opening acquire, every spawned payload task
has been joined, and folding the trace's acquire/release calls over the
strategy's holder flag shows the lock as not held when the run ends. -/
theorem locker_matched_acquire_release (st : DistLockSettings)
    (mode : LockerMode) (w : WaitingMode) (rt : RetryMode) (env : RunEnv) :
    ((Run st mode w rt env).1.countP isRelease
      = (Run st mode w rt env).1.countP isAcqSuccess)
    ∧ ((Run st mode w rt env).1.countP isPayloadEnd
      = (Run st mode w rt env).1.countP isPayloadStart)
    ∧ (Run st mode w rt env).1.foldl heldStep false = false := by
  obtain ⟨h1, h2⟩ := runRounds_counts st mode w rt env.rounds true env.tailFailures
  exact ⟨h1, h2, runRounds_held st mode w rt env.rounds true env.tailFailures⟩

/-- C4: at-most-once under SingleAttempt.  A Oneshot run with
`RetryMode = kSingleAttempt` spawns the payload at most once, whatever the
waiting mode and whatever the environment does (the payload returning,
throwing, or being cancelled included): after the first epoch the run
terminates instead of re-acquiring. -/
theorem single_attempt_at_most_once (st : DistLockSettings) (w : WaitingMode)
    (env : RunEnv) :
    (Run st .oneshot w .singleAttempt env).1.countP isPayloadStart ≤ 1 := by
  show (runRounds st .oneshot w .singleAttempt true env.rounds
    env.tailFailures).1.countP isPayloadStart ≤ 1
  rcases env.rounds with _ | ⟨r, rest⟩
  · rw [runRounds_nil]
    by_cases hb : (acquireSeq w true env.tailFailures).2 = true <;>
      simp [hb, List.countP_append, List.countP_cons,
        acquireSeq_countP_zero w true env.tailFailures isPayloadStart rfl rfl,
        isPayloadStart]
  · rw [runRounds_cons]
    by_cases hb : (acquireSeq w true r.preFailures).2 = true
    · simp [hb, List.countP_append, List.countP_cons,
        acquireSeq_countP_zero w true r.preFailures isPayloadStart rfl rfl,
        isPayloadStart]
    · have hm : modeRestarts .oneshot .singleAttempt w
          (epochLoop st r.epoch.acquireTime r.epoch.ticks
            r.epoch.payloadLife r.epoch.payloadResult).2.1 = false := rfl
      simp [hb, hm, List.countP_append, List.countP_cons,
        acquireSeq_countP_zero w true r.preFailures isPayloadStart rfl rfl,
        epochLoop_countP_zero st r.epoch.payloadLife r.epoch.acquireTime
          r.epoch.ticks r.epoch.payloadResult isPayloadStart
          (fun _ => rfl) rfl rfl (fun _ _ => rfl) rfl,
        isPayloadStart]

/-- The first acquire attempt of the run environment reports
"held by another". -/
def RunEnv.firstAttemptHeldByOther (env : RunEnv) : Prop :=
  match env.rounds with
  | [] => ∃ l, env.tailFailures = .heldByOther :: l
  | r :: _ => ∃ l, r.preFailures = .heldByOther :: l

/-- C6: NoWait termination on first contention.  A Oneshot run under
`kNoWait` whose first acquire attempt hits "held by another" produces
exactly the trace contention-then-terminated: one acquire call in total,
the payload never spawned, and the facade reports no payload error. -/
theorem nowait_terminates_on_contention (st : DistLockSettings)
    (rt : RetryMode) (env : RunEnv) (h : env.firstAttemptHeldByOther) :
    (Run st .oneshot .noWait rt env).1 = [.acqContention, .terminated]
    ∧ (Run st .oneshot .noWait rt env).1.countP isAcquireCall = 1
    ∧ (Run st .oneshot .noWait rt env).1.countP isPayloadStart = 0
    ∧ (Run st .oneshot .noWait rt env).2 = none := by
  have key : Run st .oneshot .noWait rt env
      = ([.acqContention, .terminated], none) := by
    obtain ⟨rounds, tail⟩ := env
    rcases rounds with _ | ⟨r, rest⟩
    · obtain ⟨l, hl⟩ := h
      simp only at hl
      subst hl
      show runRounds st .oneshot .noWait rt true [] (.heldByOther :: l) = _
      rw [runRounds_nil]
      have ha : acquireSeq .noWait true (AcqFail.heldByOther :: l)
          = ([.acqContention], true) := rfl
      simp [ha]
    · obtain ⟨pre, ep⟩ := r
      obtain ⟨l, hl⟩ := h
      simp only at hl
      subst hl
      show runRounds st .oneshot .noWait rt true
        (⟨.heldByOther :: l, ep⟩ :: rest) tail = _
      rw [runRounds_cons]
      have ha : acquireSeq .noWait true (AcqFail.heldByOther :: l)
          = ([.acqContention], true) := rfl
      simp [ha]
  rw [key]
  exact ⟨rfl, by decide, by decide, rfl⟩

/-- Witness for `nowait_terminates_on_contention`: a strategy already held
by another at construction. -/
theorem nowait_terminates_on_contention_witness :
    (Run ⟨10, 10, 100, 10, 10⟩ .oneshot .noWait .retry
        ⟨[], [.heldByOther]⟩).1 = [.acqContention, .terminated]
    ∧ (Run ⟨10, 10, 100, 10, 10⟩ .oneshot .noWait .retry
        ⟨[], [.heldByOther]⟩).1.countP isAcquireCall = 1
    ∧ (Run ⟨10, 10, 100, 10, 10⟩ .oneshot .noWait .retry
        ⟨[], [.heldByOther]⟩).1.countP isPayloadStart = 0
    ∧ (Run ⟨10, 10, 100, 10, 10⟩ .oneshot .noWait .retry
        ⟨[], [.heldByOther]⟩).2 = none :=
  nowait_terminates_on_contention ⟨10, 10, 100, 10, 10⟩ .retry
    ⟨[], [.heldByOther]⟩ ⟨[], rfl⟩

/-! ### Membership in the run trace -/

theorem acquireSeq_not_mem (w : WaitingMode) (first : Bool)
    (fails : List AcqFail) (e : Event)
    (hc : e ≠ .acqContention) (hf : e ≠ .acqFailure) :
    e ∉ (acquireSeq w first fails).1 := by
  intro hm
  rcases acquireSeq_mem w fails first e hm with h | h
  · exact hc h
  · exact hf h

theorem epochLoop_not_mem (st : DistLockSettings) (life refresh : Nat)
    (ticks : List RenewTick) (res : Option String) (e : Event)
    (h1 : ∀ n, e ≠ .renewOk n) (h2 : e ≠ .renewContention)
    (h3 : e ≠ .renewFailure) (h4 : ∀ n m, e ≠ .watchdogCancel n m)
    (h5 : e ≠ .runCancelled) :
    e ∉ (epochLoop st refresh ticks life res).1 := by
  intro hm
  rcases epochLoop_mem st life refresh ticks res e hm with
    ⟨n, h⟩ | h | h | ⟨n, m, h⟩ | h
  · exact h1 n h
  · exact h2 h
  · exact h3 h
  · exact h4 n m h
  · exact h5 h

/-- Decompose membership in a full round segment of the trace. -/
theorem mem_seg_cases (a ep X : List Event) (ex : PayloadExit) (e : Event)
    (hm : e ∈ a ++ [.acqSuccess, .publishLocked true, .payloadStart]
            ++ ep ++ [.payloadEnd ex, .release, .publishLocked false] ++ X) :
    e ∈ a ∨ e ∈ ep ∨ e ∈ X ∨ e = .acqSuccess ∨ e = .publishLocked true
      ∨ e = .payloadStart ∨ e = .payloadEnd ex ∨ e = .release
      ∨ e = .publishLocked false := by
  simp only [List.mem_append, List.mem_cons, List.not_mem_nil, or_false] at hm
  tauto

/-- Membership of an epoch event in a full round segment. -/
theorem mem_seg_of_ep (a ep X : List Event) (ex : PayloadExit) (e : Event)
    (h : e ∈ ep) :
    e ∈ a ++ [.acqSuccess, .publishLocked true, .payloadStart]
      ++ ep ++ [.payloadEnd ex, .release, .publishLocked false] ++ X := by
  simp [List.mem_append, h]

/-- Membership of a continuation event in a full round segment. -/
theorem mem_seg_of_cont (a ep X : List Event) (ex : PayloadExit) (e : Event)
    (h : e ∈ X) :
    e ∈ a ++ [.acqSuccess, .publishLocked true, .payloadStart]
      ++ ep ++ [.payloadEnd ex, .release, .publishLocked false] ++ X := by
  simp [List.mem_append, h]

theorem runRounds_watchdog (st : DistLockSettings) (mode : LockerMode)
    (w : WaitingMode) (rt : RetryMode) :
    ∀ (rounds : List Round) (first : Bool) (tail : List AcqFail),
      (∀ now rfr,
        Event.watchdogCancel now rfr
            ∈ (runRounds st mode w rt first rounds tail).1 →
          rfr + st.lockTtl + st.forcedStopMargin < now)
      ∧ (Event.payloadEnd .cancelled
            ∈ (runRounds st mode w rt first rounds tail).1 →
          (∃ now rfr,
            Event.watchdogCancel now rfr
                ∈ (runRounds st mode w rt first rounds tail).1
              ∧ rfr + st.lockTtl + st.forcedStopMargin < now)
            ∨ Event.runCancelled
                ∈ (runRounds st mode w rt first rounds tail).1) := by
  intro rounds
  induction rounds with
  | nil =>
    intro first tail
    rw [runRounds_nil]
    by_cases hb : (acquireSeq w first tail).2 = true
    · rw [if_pos hb]
      constructor
      · intro now rfr hm
        exfalso
        rcases List.mem_append.1 hm with hm | hm
        · exact acquireSeq_not_mem w first tail _ (by simp) (by simp) hm
        · simp at hm
      · intro hm
        exfalso
        rcases List.mem_append.1 hm with hm | hm
        · exact acquireSeq_not_mem w first tail _ (by simp) (by simp) hm
        · simp at hm
    · rw [if_neg hb]
      constructor
      · intro now rfr hm
        exfalso
        rcases List.mem_append.1 hm with hm | hm
        · exact acquireSeq_not_mem w first tail _ (by simp) (by simp) hm
        · simp at hm
      · intro _
        right
        simp
  | cons r rest ih =>
    intro first tail
    obtain ⟨ih1, ih2⟩ := ih false tail
    rw [runRounds_cons]
    by_cases hb : (acquireSeq w first r.preFailures).2 = true
    · rw [if_pos hb]
      constructor
      · intro now rfr hm
        exfalso
        rcases List.mem_append.1 hm with hm | hm
        · exact acquireSeq_not_mem w first r.preFailures _
            (by simp) (by simp) hm
        · simp at hm
      · intro hm
        exfalso
        rcases List.mem_append.1 hm with hm | hm
        · exact acquireSeq_not_mem w first r.preFailures _
            (by simp) (by simp) hm
        · simp at hm
    · rw [if_neg hb]
      by_cases hc :
          (!(epochLoop st r.epoch.acquireTime r.epoch.ticks
              r.epoch.payloadLife r.epoch.payloadResult).2.2
            && modeRestarts mode rt w
              (epochLoop st r.epoch.acquireTime r.epoch.ticks
                r.epoch.payloadLife r.epoch.payloadResult).2.1) = true
      · rw [if_pos hc]
        constructor
        · intro now rfr hm
          rcases mem_seg_cases _ _ _ _ _ hm with
            hm | hm | hm | hm | hm | hm | hm | hm | hm
          · exact absurd hm (acquireSeq_not_mem w first r.preFailures _
              (by simp) (by simp))
          · exact epochLoop_watchdog_cond st r.epoch.payloadLife
              r.epoch.acquireTime r.epoch.ticks r.epoch.payloadResult
              now rfr hm
          · exact ih1 now rfr hm
          · simp at hm
          · simp at hm
          · simp at hm
          · simp at hm
          · simp at hm
          · simp at hm
        · intro hm
          rcases mem_seg_cases _ _ _ _ _ hm with
            hm | hm | hm | hm | hm | hm | hm | hm | hm
          · exact absurd hm (acquireSeq_not_mem w first r.preFailures _
              (by simp) (by simp))
          · exact absurd hm (epochLoop_not_mem st r.epoch.payloadLife
              r.epoch.acquireTime r.epoch.ticks r.epoch.payloadResult _
              (by simp) (by simp) (by simp) (by simp) (by simp))
          · rcases ih2 hm with ⟨now, rfr, hw, hcond⟩ | hw
            · exact .inl ⟨now, rfr, mem_seg_of_cont _ _ _ _ _ hw, hcond⟩
            · exact .inr (mem_seg_of_cont _ _ _ _ _ hw)
          · simp at hm
          · simp at hm
          · simp at hm
          · have hcanc : (epochLoop st r.epoch.acquireTime r.epoch.ticks
                r.epoch.payloadLife r.epoch.payloadResult).2.1
                  = .cancelled := by
              simp only [Event.payloadEnd.injEq] at hm
              exact hm.symm
            rcases epochLoop_cancelled st r.epoch.payloadLife
                r.epoch.acquireTime r.epoch.ticks r.epoch.payloadResult
                hcanc with ⟨now, rfr, hw⟩ | hw
            · exact .inl ⟨now, rfr, mem_seg_of_ep _ _ _ _ _ hw,
                epochLoop_watchdog_cond st r.epoch.payloadLife
                  r.epoch.acquireTime r.epoch.ticks r.epoch.payloadResult
                  now rfr hw⟩
            · exact .inr (mem_seg_of_ep _ _ _ _ _ hw)
          · simp at hm
          · simp at hm
      · rw [if_neg hc]
        constructor
        · intro now rfr hm
          rcases mem_seg_cases _ _ _ _ _ hm with
            hm | hm | hm | hm | hm | hm | hm | hm | hm
          · exact absurd hm (acquireSeq_not_mem w first r.preFailures _
              (by simp) (by simp))
          · exact epochLoop_watchdog_cond st r.epoch.payloadLife
              r.epoch.acquireTime r.epoch.ticks r.epoch.payloadResult
              now rfr hm
          · simp at hm
          · simp at hm
          · simp at hm
          · simp at hm
          · simp at hm
          · simp at hm
          · simp at hm
        · intro hm
          rcases mem_seg_cases _ _ _ _ _ hm with
            hm | hm | hm | hm | hm | hm | hm | hm | hm
          · exact absurd hm (acquireSeq_not_mem w first r.preFailures _
              (by simp) (by simp))
          · exact absurd hm (epochLoop_not_mem st r.epoch.payloadLife
              r.epoch.acquireTime r.epoch.ticks r.epoch.payloadResult _
              (by simp) (by simp) (by simp) (by simp) (by simp))
          · simp at hm
          · simp at hm
          · simp at hm
          · simp at hm
          · have hcanc : (epochLoop st r.epoch.acquireTime r.epoch.ticks
                r.epoch.payloadLife r.epoch.payloadResult).2.1
                  = .cancelled := by
              simp only [Event.payloadEnd.injEq] at hm
              exact hm.symm
            rcases epochLoop_cancelled st r.epoch.payloadLife
                r.epoch.acquireTime r.epoch.ticks r.epoch.payloadResult
                hcanc with ⟨now, rfr, hw⟩ | hw
            · exact .inl ⟨now, rfr, mem_seg_of_ep _ _ _ _ _ hw,
                epochLoop_watchdog_cond st r.epoch.payloadLife
                  r.epoch.acquireTime r.epoch.ticks r.epoch.payloadResult
                  now rfr hw⟩
            · exact .inr (mem_seg_of_ep _ _ _ _ _ hw)
          · simp at hm
          · simp at hm

/-- C3: the watchdog is the sole canceller, and only on staleness.  In any
run trace, every watchdog cancellation happened at a moment when
`now - lock_refresh_time > lock_ttl + forced_stop_margin`, and every
cancelled payload was cancelled either by such a watchdog firing or by
external cancellation of the run — a failed renewal by itself never
cancels the payload. -/
theorem watchdog_freshness_only (st : DistLockSettings) (mode : LockerMode)
    (w : WaitingMode) (rt : RetryMode) (env : RunEnv) :
    (∀ now rfr,
      Event.watchdogCancel now rfr ∈ (Run st mode w rt env).1 →
        rfr + st.lockTtl + st.forcedStopMargin < now)
    ∧ (Event.payloadEnd .cancelled ∈ (Run st mode w rt env).1 →
        (∃ now rfr,
          Event.watchdogCancel now rfr ∈ (Run st mode w rt env).1
            ∧ rfr + st.lockTtl + st.forcedStopMargin < now)
          ∨ Event.runCancelled ∈ (Run st mode w rt env).1) :=
  runRounds_watchdog st mode w rt env.rounds true env.tailFailures

/-- Witness for `watchdog_freshness_only`: a run in which the watchdog
does fire (refresh time 0, check at time 200, ttl 100, margin 10). -/
theorem watchdog_freshness_only_witness :
    (0 : Nat) + (100 : Nat) + (10 : Nat) < 200
    ∧ ((∃ now rfr,
        Event.watchdogCancel now rfr
            ∈ (Run ⟨10, 10, 100, 10, 10⟩ .oneshot .wait .singleAttempt
                ⟨[⟨[], ⟨0, [⟨200, .success⟩], 5, none⟩⟩], []⟩).1
          ∧ rfr + (100 : Nat) + (10 : Nat) < now)
      ∨ Event.runCancelled
          ∈ (Run ⟨10, 10, 100, 10, 10⟩ .oneshot .wait .singleAttempt
              ⟨[⟨[], ⟨0, [⟨200, .success⟩], 5, none⟩⟩], []⟩).1) :=
  ⟨(watchdog_freshness_only ⟨10, 10, 100, 10, 10⟩ .oneshot .wait
      .singleAttempt ⟨[⟨[], ⟨0, [⟨200, .success⟩], 5, none⟩⟩], []⟩).1
      200 0 (by decide),
   (watchdog_freshness_only ⟨10, 10, 100, 10, 10⟩ .oneshot .wait
      .singleAttempt ⟨[⟨[], ⟨0, [⟨200, .success⟩], 5, none⟩⟩], []⟩).2
      (by decide)⟩

/-! ### The facade result -/

theorem runRounds_worker_none (st : DistLockSettings) (w : WaitingMode)
    (rt : RetryMode) :
    ∀ (rounds : List Round) (first : Bool) (tail : List AcqFail),
      (runRounds st .worker w rt first rounds tail).2 = none := by
  intro rounds
  induction rounds with
  | nil =>
    intro first tail
    rw [runRounds_nil]
    by_cases hb : (acquireSeq w first tail).2 = true
    · rw [if_pos hb]
    · rw [if_neg hb]
  | cons r rest ih =>
    intro first tail
    rw [runRounds_cons]
    by_cases hb : (acquireSeq w first r.preFailures).2 = true
    · rw [if_pos hb]
    · rw [if_neg hb]
      by_cases hc :
          (!(epochLoop st r.epoch.acquireTime r.epoch.ticks
              r.epoch.payloadLife r.epoch.payloadResult).2.2
            && modeRestarts .worker rt w
              (epochLoop st r.epoch.acquireTime r.epoch.ticks
                r.epoch.payloadLife r.epoch.payloadResult).2.1) = true
      · rw [if_pos hc]
        exact ih false tail
      · rw [if_neg hc]
        generalize (epochLoop st r.epoch.acquireTime r.epoch.ticks
            r.epoch.payloadLife r.epoch.payloadResult).2.1 = ex
        cases ex <;> rfl

/-- C5: exception propagation through the Oneshot facade.  For a
single-attempt Oneshot run whose payload epoch ends by throwing `e`, the
run's facade outcome is exactly `e` — the exception the facade's `Get`
rethrows — and the trace shows that the propagation point (`terminated`)
comes only after the payload has been joined, `release` has completed and
`is_locked = false` was published; a Worker-mode run never reports a
payload exception through the facade. -/
theorem oneshot_exception_propagation (st : DistLockSettings) (r : Round)
    (rest : List Round) (tail : List AcqFail) (e : String)
    (hx : (epochLoop st r.epoch.acquireTime r.epoch.ticks r.epoch.payloadLife
        r.epoch.payloadResult).2.1 = .threw e) :
    (∃ pre, (Run st .oneshot .wait .singleAttempt ⟨r :: rest, tail⟩).1
        = pre ++ [.payloadEnd (.threw e), .release, .publishLocked false,
                  .terminated])
    ∧ (Run st .oneshot .wait .singleAttempt ⟨r :: rest, tail⟩).2 = some e
    ∧ (∀ (w : WaitingMode) (rm : RetryMode) (env : RunEnv),
        (Run st .worker w rm env).2 = none) := by
  have hb : (acquireSeq .wait true r.preFailures).2 = false :=
    acquireSeq_wait_no_break r.preFailures true
  have hm : modeRestarts .oneshot .singleAttempt .wait
      (epochLoop st r.epoch.acquireTime r.epoch.ticks r.epoch.payloadLife
        r.epoch.payloadResult).2.1 = false := rfl
  have key : Run st .oneshot .wait .singleAttempt ⟨r :: rest, tail⟩
      = ((acquireSeq .wait true r.preFailures).1
          ++ [.acqSuccess, .publishLocked true, .payloadStart]
          ++ (epochLoop st r.epoch.acquireTime r.epoch.ticks
              r.epoch.payloadLife r.epoch.payloadResult).1
          ++ [.payloadEnd (.threw e), .release, .publishLocked false]
          ++ [.terminated],
         some e) := by
    show runRounds st .oneshot .wait .singleAttempt true (r :: rest) tail = _
    rw [runRounds_cons]
    rw [if_neg (by simp [hb])]
    rw [if_neg (by simp [hm])]
    rw [hx]
    rfl
  refine ⟨⟨(acquireSeq .wait true r.preFailures).1
      ++ [.acqSuccess, .publishLocked true, .payloadStart]
      ++ (epochLoop st r.epoch.acquireTime r.epoch.ticks
          r.epoch.payloadLife r.epoch.payloadResult).1, ?_⟩, ?_, ?_⟩
  · rw [key]
    simp [List.append_assoc]
  · rw [key]
  · intro w rm env
    exact runRounds_worker_none st w rm env.rounds true env.tailFailures

/-- Witness for `oneshot_exception_propagation`: the payload throws "123"
immediately (the SingleAttempt test scenario). -/
theorem oneshot_exception_propagation_witness :
    (∃ pre, (Run ⟨10, 10, 100, 10, 10⟩ .oneshot .wait .singleAttempt
        ⟨[⟨[], ⟨0, [], 0, some "123"⟩⟩], []⟩).1
        = pre ++ [.payloadEnd (.threw "123"), .release, .publishLocked false,
                  .terminated])
    ∧ (Run ⟨10, 10, 100, 10, 10⟩ .oneshot .wait .singleAttempt
        ⟨[⟨[], ⟨0, [], 0, some "123"⟩⟩], []⟩).2 = some "123"
    ∧ (∀ (w : WaitingMode) (rm : RetryMode) (env : RunEnv),
        (Run ⟨10, 10, 100, 10, 10⟩ .worker w rm env).2 = none) :=
  oneshot_exception_propagation ⟨10, 10, 100, 10, 10⟩
    ⟨[], ⟨0, [], 0, some "123"⟩⟩ [] [] "123" rfl

/-! ### `is_locked` covers the payload's lifetime -/

theorem safeFrom_append (xs : List Event) :
    ∀ (ys : List Event) (l r : Bool),
      safeFrom l r (xs ++ ys)
        = (safeFrom l r xs
            && safeFrom (xs.foldl lockedStep l) (xs.foldl runningStep r) ys) := by
  induction xs with
  | nil => intro ys l r; simp [safeFrom]
  | cons e tl ih =>
    intro ys l r
    simp only [List.cons_append, safeFrom, List.foldl_cons, List.append_eq]
    rw [ih, Bool.and_assoc]

theorem safeFrom_neutral (evs : List Event)
    (h : ∀ e ∈ evs, (∀ b, lockedStep b e = b) ∧ (∀ b, runningStep b e = b)) :
    ∀ l r, (!r || l) = true →
      safeFrom l r evs = true
      ∧ evs.foldl lockedStep l = l ∧ evs.foldl runningStep r = r := by
  induction evs with
  | nil => intro l r _; exact ⟨rfl, rfl, rfl⟩
  | cons e tl ih =>
    intro l r hok
    obtain ⟨hl, hr⟩ := h e (by simp)
    obtain ⟨h1, h2, h3⟩ := ih (fun x hx => h x (by simp [hx])) l r hok
    refine ⟨?_, ?_, ?_⟩
    · simp [safeFrom, hl, hr, hok, h1]
    · simp [List.foldl_cons, hl, h2]
    · simp [List.foldl_cons, hr, h3]

theorem acquireSeq_neutral (w : WaitingMode) (first : Bool)
    (fails : List AcqFail) :
    ∀ e ∈ (acquireSeq w first fails).1,
      (∀ b, lockedStep b e = b) ∧ (∀ b, runningStep b e = b) := by
  intro e he
  rcases acquireSeq_mem w fails first e he with h | h <;> subst h <;>
    exact ⟨fun _ => rfl, fun _ => rfl⟩

theorem epochLoop_neutral (st : DistLockSettings) (life refresh : Nat)
    (ticks : List RenewTick) (res : Option String) :
    ∀ e ∈ (epochLoop st refresh ticks life res).1,
      (∀ b, lockedStep b e = b) ∧ (∀ b, runningStep b e = b) := by
  intro e he
  rcases epochLoop_mem st life refresh ticks res e he with
    ⟨n, h⟩ | h | h | ⟨n, m, h⟩ | h <;> subst h <;>
    exact ⟨fun _ => rfl, fun _ => rfl⟩

theorem runRounds_safeFrom (st : DistLockSettings) (mode : LockerMode)
    (w : WaitingMode) (rt : RetryMode) :
    ∀ (rounds : List Round) (first : Bool) (tail : List AcqFail),
      safeFrom false false (runRounds st mode w rt first rounds tail).1 = true := by
  intro rounds
  induction rounds with
  | nil =>
    intro first tail
    rw [runRounds_nil]
    obtain ⟨ha1, ha2, ha3⟩ := safeFrom_neutral _
      (acquireSeq_neutral w first tail) false false rfl
    by_cases hb : (acquireSeq w first tail).2 = true
    · rw [if_pos hb]
      simp [safeFrom_append, ha1, ha2, ha3, safeFrom, lockedStep, runningStep]
    · rw [if_neg hb]
      simp [safeFrom_append, ha1, ha2, ha3, safeFrom, lockedStep, runningStep]
  | cons r rest ih =>
    intro first tail
    rw [runRounds_cons]
    obtain ⟨ha1, ha2, ha3⟩ := safeFrom_neutral _
      (acquireSeq_neutral w first r.preFailures) false false rfl
    by_cases hb : (acquireSeq w first r.preFailures).2 = true
    · rw [if_pos hb]
      simp [safeFrom_append, ha1, ha2, ha3, safeFrom, lockedStep, runningStep]
    · rw [if_neg hb]
      obtain ⟨he1, he2, he3⟩ := safeFrom_neutral _
        (epochLoop_neutral st r.epoch.payloadLife r.epoch.acquireTime
          r.epoch.ticks r.epoch.payloadResult) true true rfl
      by_cases hc :
          (!(epochLoop st r.epoch.acquireTime r.epoch.ticks
              r.epoch.payloadLife r.epoch.payloadResult).2.2
            && modeRestarts mode rt w
              (epochLoop st r.epoch.acquireTime r.epoch.ticks
                r.epoch.payloadLife r.epoch.payloadResult).2.1) = true
      · rw [if_pos hc]
        simp [safeFrom_append, List.foldl_append, ha1, ha2, ha3, he1, he2, he3,
          safeFrom, lockedStep, runningStep, ih false tail]
      · rw [if_neg hc]
        simp [safeFrom_append, List.foldl_append, ha1, ha2, ha3, he1, he2, he3,
          safeFrom, lockedStep, runningStep]

theorem safeFrom_take (evs : List Event) :
    ∀ (l r : Bool) (n : Nat), safeFrom l r evs = true → (!r || l) = true →
      (evs.take n).foldl runningStep r = true →
      (evs.take n).foldl lockedStep l = true := by
  induction evs with
  | nil =>
    intro l r n _ hok hr
    simp only [List.take_nil, List.foldl_nil] at hr ⊢
    rw [hr] at hok
    simpa using hok
  | cons e tl ih =>
    intro l r n hs hok hr
    cases n with
    | zero =>
      simp only [List.take_zero, List.foldl_nil] at hr ⊢
      rw [hr] at hok
      simpa using hok
    | succ n =>
      simp only [List.take_succ_cons, List.foldl_cons] at hr ⊢
      simp only [safeFrom, Bool.and_eq_true] at hs
      exact ih (lockedStep l e) (runningStep r e) n hs.2 hs.1 hr

/-- C7: the payload never runs while `is_locked = false`.  At every prefix
of the trace of any run, if a payload task has been spawned and not yet
joined, the published `is_locked_` flag is `true`: the flag is set before
the payload is spawned and cleared only after the payload was joined and
`release` completed. -/
theorem payload_only_while_locked (st : DistLockSettings) (mode : LockerMode)
    (w : WaitingMode) (rt : RetryMode) (env : RunEnv) (n : Nat)
    (h : ((Run st mode w rt env).1.take n).foldl runningStep false = true) :
    ((Run st mode w rt env).1.take n).foldl lockedStep false = true :=
  safeFrom_take _ false false n
    (runRounds_safeFrom st mode w rt env.rounds true env.tailFailures) rfl h

/-- Witness for `payload_only_while_locked`: after the first three events
of a simple run the payload runs and `is_locked` is indeed `true`. -/
theorem payload_only_while_locked_witness :
    (((Run ⟨10, 10, 100, 10, 10⟩ .oneshot .wait .retry
        ⟨[⟨[], ⟨0, [], 0, none⟩⟩], []⟩).1.take 3).foldl runningStep false
      = true)
    ∧ (((Run ⟨10, 10, 100, 10, 10⟩ .oneshot .wait .retry
        ⟨[⟨[], ⟨0, [], 0, none⟩⟩], []⟩).1.take 3).foldl lockedStep false
      = true) :=
  ⟨by decide,
   payload_only_while_locked ⟨10, 10, 100, 10, 10⟩ .oneshot .wait .retry
     ⟨[⟨[], ⟨0, [], 0, none⟩⟩], []⟩ 3 (by decide)⟩

end DistLock.Locker

namespace DistLock

/-!
## Several lockers contending through one shared strategy

For the mutual-exclusion claim we need an interleaving of several lockers
over one shared `MockDistLockStrategy`.  The per-locker protocol is
modelled from the spec (the `Locker::Run` body is not in the sources), but
every touch of the strategy state goes through the real embedded
`MockDistLockStrategy.Acquire` / `Release` operations.
-/

/-- Phase of one locker: still acquiring, holding the lock with its
payload running, or finished (payload joined, lock released/given up). -/
inductive Phase where
  | acquiring
  | holding
  | finished
  deriving DecidableEq, Repr

/-- One contending locker: the `id` it passes to the strategy and its
current phase. -/
structure LockerProc where
  lockerId : String
  phase : Phase
  deriving DecidableEq, Repr

/-- Global state: the shared strategy, the contending lockers, and the
workload's started count (bumped when a payload is spawned, i.e. when a
locker enters Holding). -/
structure Sys (n : Nat) where
  strat : MockDistLockStrategy
  procs : Fin n → LockerProc
  started : Nat

/-- Modelled from the spec: one interleaving step of the contending
lockers (the bodies of `Locker::Run` are not in the sources; §4.2.2 and
§4.2.5 give the protocol).  An acquiring locker attempts `Acquire`
(success enters Holding and spawns the payload; failure leaves it
acquiring) or gives up (NoWait/cancellation); a holder finishes by joining
its payload and calling `Release`; the environment may toggle
`allowed_`. -/
inductive Step {n : Nat} : Sys n → Sys n → Prop where
  | acqSuccess (s : Sys n) (i : Fin n)
      (hph : (s.procs i).phase = .acquiring)
      (hres : (s.strat.Acquire (s.procs i).lockerId).1 = .success) :
      Step s ⟨(s.strat.Acquire (s.procs i).lockerId).2,
              Function.update s.procs i ⟨(s.procs i).lockerId, .holding⟩,
              s.started + 1⟩
  | acqFail (s : Sys n) (i : Fin n)
      (hph : (s.procs i).phase = .acquiring)
      (hres : (s.strat.Acquire (s.procs i).lockerId).1 ≠ .success) :
      Step s ⟨(s.strat.Acquire (s.procs i).lockerId).2, s.procs, s.started⟩
  | giveUp (s : Sys n) (i : Fin n)
      (hph : (s.procs i).phase = .acquiring) :
      Step s ⟨s.strat,
              Function.update s.procs i ⟨(s.procs i).lockerId, .finished⟩,
              s.started⟩
  | finish (s : Sys n) (i : Fin n)
      (hph : (s.procs i).phase = .holding) :
      Step s ⟨s.strat.Release (s.procs i).lockerId,
              Function.update s.procs i ⟨(s.procs i).lockerId, .finished⟩,
              s.started⟩
  | allow (s : Sys n) (a : Bool) :
      Step s ⟨s.strat.Allow a, s.procs, s.started⟩

/-- Invariant: every holder's id is what the strategy records. -/
abbrev Inv {n : Nat} (s : Sys n) : Prop :=
  ∀ i : Fin n, (s.procs i).phase = .holding →
    s.strat.lockedBy = (s.procs i).lockerId

/-- Well-formedness: locker ids are non-empty and pairwise distinct
(each locker instance has a unique id). -/
abbrev WF {n : Nat} (s : Sys n) : Prop :=
  (∀ i : Fin n, (s.procs i).lockerId ≠ "")
  ∧ (∀ i j : Fin n, (s.procs i).lockerId = (s.procs j).lockerId → i = j)

/-- Reachability under interleaved steps. -/
def Reachable {n : Nat} : Sys n → Sys n → Prop :=
  Relation.ReflTransGen Step

theorem update_phase_lockerId {n : Nat} (procs : Fin n → LockerProc)
    (i : Fin n) (ph : Phase) (k : Fin n) :
    (Function.update procs i ⟨(procs i).lockerId, ph⟩ k).lockerId
      = (procs k).lockerId := by
  by_cases hk : k = i
  · subst hk; simp
  · simp [Function.update_noteq hk]

theorem step_preserves {n : Nat} (s t : Sys n) (hst : Step s t)
    (hi : Inv s) (hw : WF s) : Inv t ∧ WF t := by
  have hwf_of : (∀ k, (t.procs k).lockerId = (s.procs k).lockerId) → WF t := by
    intro hids
    exact ⟨fun k => (hids k).symm ▸ hw.1 k,
      fun i j hij => hw.2 i j ((hids i).symm.trans (hij.trans (hids j)))⟩
  cases hst with
  | acqSuccess i hph hres =>
    constructor
    · intro j hj
      by_cases hij : j = i
      · subst hij
        simpa using Acquire_success_lockedBy s.strat (s.procs j).lockerId hres
      · have hj' : (s.procs j).phase = .holding := by
          simpa [Function.update_noteq hij] using hj
        exfalso
        rcases Acquire_success_pre s.strat (s.procs i).lockerId hres with
          h0 | h0
        · exact hw.1 j ((hi j hj').symm.trans h0)
        · exact hij (hw.2 j i ((hi j hj').symm.trans h0))
    · exact hwf_of (fun k => update_phase_lockerId s.procs i .holding k)
  | acqFail i hph hres =>
    constructor
    · intro j hj
      show (s.strat.Acquire (s.procs i).lockerId).2.lockedBy
        = (s.procs j).lockerId
      rw [Acquire_fail_lockedBy s.strat (s.procs i).lockerId hres]
      exact hi j hj
    · exact hwf_of (fun k => rfl)
  | giveUp i hph =>
    constructor
    · intro j hj
      by_cases hij : j = i
      · subst hij
        simp at hj
      · have hj' : (s.procs j).phase = .holding := by
          simpa [Function.update_noteq hij] using hj
        show s.strat.lockedBy
          = (Function.update s.procs i ⟨(s.procs i).lockerId, .finished⟩ j).lockerId
        rw [update_phase_lockerId]
        exact hi j hj'
    · exact hwf_of (fun k => update_phase_lockerId s.procs i .finished k)
  | finish i hph =>
    constructor
    · intro j hj
      by_cases hij : j = i
      · subst hij
        simp at hj
      · have hj' : (s.procs j).phase = .holding := by
          simpa [Function.update_noteq hij] using hj
        exact absurd (hw.2 j i ((hi j hj').symm.trans (hi i hph)))
          hij
    · exact hwf_of (fun k => update_phase_lockerId s.procs i .finished k)
  | allow a =>
    constructor
    · intro j hj
      show (s.strat.Allow a).lockedBy = (s.procs j).lockerId
      exact hi j hj
    · exact hwf_of (fun k => rfl)

theorem inv_reachable {n : Nat} (s0 s : Sys n) (h0i : Inv s0) (h0w : WF s0)
    (hr : Reachable s0 s) : Inv s ∧ WF s := by
  induction hr with
  | refl => exact ⟨h0i, h0w⟩
  | tail _ hstep ih => exact step_preserves _ _ hstep ih.1 ih.2

/-- C1: mutual exclusion of the payload.  In every state reachable from a
well-formed one, (a) at most one contending locker is in Holding (running
its payload); (b) while someone holds, every other contender's `Acquire`
call reports held-by-another, so it cannot enter its payload; and
(c) every interleaving step across which the holder keeps holding leaves
the workload's started count unchanged — a second locker started over the
same strategy does not start its payload. -/
theorem locker_mutual_exclusion {n : Nat} (s0 s : Sys n)
    (h0i : Inv s0) (h0w : WF s0) (hr : Reachable s0 s) :
    (∀ i j : Fin n, (s.procs i).phase = .holding →
        (s.procs j).phase = .holding → i = j)
    ∧ (∀ i j : Fin n, (s.procs i).phase = .holding → j ≠ i →
        (s.strat.Acquire (s.procs j).lockerId).1 = .heldByAnother)
    ∧ (∀ t : Sys n, Step s t →
        (∃ i : Fin n, (s.procs i).phase = .holding
          ∧ (t.procs i).phase = .holding) →
        t.started = s.started) := by
  obtain ⟨hi, hw⟩ := inv_reachable s0 s h0i h0w hr
  have hexcl : ∀ i j : Fin n, (s.procs i).phase = .holding →
      (s.procs j).phase = .holding → i = j := fun i j hpi hpj =>
    hw.2 i j ((hi i hpi).symm.trans (hi j hpj))
  have hcontend : ∀ i j : Fin n, (s.procs i).phase = .holding → j ≠ i →
      (s.strat.Acquire (s.procs j).lockerId).1 = .heldByAnother := by
    intro i j hpi hji
    apply Acquire_heldByAnother_of
    · rw [hi i hpi]
      exact hw.1 i
    · rw [hi i hpi]
      intro he
      exact hji (hw.2 i j he).symm
  refine ⟨hexcl, hcontend, ?_⟩
  intro t hstep hhold
  obtain ⟨i, hsi, _⟩ := hhold
  cases hstep with
  | acqSuccess k hph hres =>
    exfalso
    have hki : k ≠ i := by
      intro he
      rw [he, hsi] at hph
      cases hph
    rw [hcontend i k hsi hki] at hres
    cases hres
  | acqFail k hph hres => rfl
  | giveUp k hph => rfl
  | finish k hph => rfl
  | allow a => rfl

/-- Witness for `locker_mutual_exclusion`: two lockers "1" and "2", the
first holding the lock recorded by the strategy, the second still
acquiring. -/
theorem locker_mutual_exclusion_witness :
    let S : Sys 2 :=
      ⟨⟨"1", true, 1⟩, ![⟨"1", .holding⟩, ⟨"2", .acquiring⟩], 1⟩
    (∀ i j : Fin 2, (S.procs i).phase = .holding →
        (S.procs j).phase = .holding → i = j)
    ∧ (∀ i j : Fin 2, (S.procs i).phase = .holding → j ≠ i →
        (S.strat.Acquire (S.procs j).lockerId).1 = .heldByAnother)
    ∧ (∀ t : Sys 2, Step S t →
        (∃ i : Fin 2, (S.procs i).phase = .holding
          ∧ (t.procs i).phase = .holding) →
        t.started = S.started) :=
  locker_mutual_exclusion
    ⟨⟨"1", true, 1⟩, ![⟨"1", .holding⟩, ⟨"2", .acquiring⟩], 1⟩
    ⟨⟨"1", true, 1⟩, ![⟨"1", .holding⟩, ⟨"2", .acquiring⟩], 1⟩
    (by decide) (by decide) Relation.ReflTransGen.refl

end DistLock
